import Mathlib

/-!
# Verification of TAFFO `TaffoUtils/InputInfo.h`

Shallow embedding of the in-memory model for numeric-precision annotations
(`FPType`, `Range`, `InputInfo`, `StructInfo`, `CmpErrorInfo`) and of the
metadata codec, together with proofs of the specified properties.

Modelling conventions:
* C++ `double` fields are modelled as `Rat`; the codec and all the claims
  treated here only store and compare these values, never compute with them.
* C++ `int` (32-bit) is modelled as `Int` and `unsigned` as `Nat`; where the
  source performs arithmetic whose result depends on the 32-bit wrap-around
  (the unsigned subtraction in `FPType::toString`), the wrap is made explicit
  with `% 2^32`.
* `std::shared_ptr<T>` fields that only ever hold a value or null are
  modelled as `Option`; claim C7 about ownership additionally uses an
  explicit address/heap model.
-/

namespace InputInfoModel

/-- `TType::TTypeKind` from InputInfo.h: the discriminator of the closed
numeric-type hierarchy.  The source declares exactly one case, `K_FPType`. -/
inductive TTypeKind where
  | K_FPType
  deriving DecidableEq, Repr

/-- `FPType` from InputInfo.h: `int Width` (negative means signed, magnitude
is the bit width) and `unsigned PointPos` (number of fractional bits).
`Width` models a C++ 32-bit `int`, `PointPos` a 32-bit `unsigned`. -/
structure FPType where
  Width : Int
  PointPos : Nat
  deriving DecidableEq, Repr

/-- Every `FPType` carries the kind tag `K_FPType` (set by its constructor
via the `TType(K_FPType)` base initialiser). -/
def FPType.getKind (_ : FPType) : TTypeKind := .K_FPType

/-- Conversion of a 32-bit unsigned value to a 32-bit `int` (two's
complement reinterpretation, the behaviour of every LLVM host platform). -/
def toInt32 (v : Nat) : Int :=
  if v % 2 ^ 32 < 2 ^ 31 then ((v % 2 ^ 32 : Nat) : Int)
  else ((v % 2 ^ 32 : Nat) : Int) - 2 ^ 32

/-- `FPType::FPType(unsigned Width, unsigned PointPos, bool Signed = true)`:
stores `(Signed) ? -Width : Width` into the `int Width` field.  `-Width` is
the C++ unsigned negation, `(2^32 - Width) mod 2^32`, and the initialisation
of the `int` member then reinterprets that 32-bit value as two's
complement; the composition only equals the mathematical `-Width` when
`0 < Width < 2^31`. -/
def FPType.ofUnsigned (Width : Nat) (PointPos : Nat) (Signed : Bool := true) : FPType :=
  ⟨toInt32 (if Signed then (2 ^ 32 - Width % 2 ^ 32) % 2 ^ 32 else Width % 2 ^ 32),
    PointPos⟩

/-- `FPType::FPType(int Width, unsigned PointPos)`. -/
def FPType.ofSigned (Width : Int) (PointPos : Nat) : FPType :=
  ⟨Width, PointPos⟩

/-- `FPType::getWidth`: `std::abs(Width)`. -/
def FPType.getWidth (t : FPType) : Nat := t.Width.natAbs

/-- `FPType::getSWidth`. -/
def FPType.getSWidth (t : FPType) : Int := t.Width

/-- `FPType::getPointPos`. -/
def FPType.getPointPos (t : FPType) : Nat := t.PointPos

/-- `FPType::isSigned`: `Width < 0`. -/
def FPType.isSigned (t : FPType) : Bool := t.Width < 0

/-- `FPType::clone`: `new FPType(Width, PointPos)`. -/
def FPType.clone (t : FPType) : FPType := ⟨t.Width, t.PointPos⟩

/-- `FPType::toString`.  The source streams `s`/`u` from the sign of `Width`,
then `std::abs(Width)-PointPos`: with `int` promoted to `unsigned` by the
usual arithmetic conversions this subtraction is performed modulo `2^32`,
which the definition mirrors, then `_`, `PointPos`, and `fixp`. -/
def FPType.toString (t : FPType) : String :=
  (if t.Width < 0 then "s" else "u")
    ++ Nat.repr ((t.Width.natAbs + (2 ^ 32 - t.PointPos % 2 ^ 32)) % 2 ^ 32)
    ++ "_" ++ Nat.repr t.PointPos ++ "fixp"

/-- `TType::operator==`: compares the kind tags only. -/
def TType.baseEq (ka kb : TTypeKind) : Bool := ka = kb

/-- `FPType::operator==(const TType &b)`: first the base-class kind check
(`TType::operator==`), then — only after that check succeeded — the downcast
to `FPType` and the comparison of `(Width, PointPos)`.  Since `K_FPType` is
the sole kind in the source, the right operand here is always an `FPType`;
the two-stage structure of the check is kept. -/
def FPType.eqTType (a b : FPType) : Bool :=
  if ¬ TType.baseEq a.getKind b.getKind then false
  else a.Width == b.Width && a.PointPos == b.PointPos

/-- `Range` from InputInfo.h: two `double` fields, no invariant. -/
structure Range where
  Min : Rat
  Max : Rat
  deriving DecidableEq, Repr

/-- `Range::Range(Range&)` (copy): copies `Min` and `Max`. -/
def Range.copy (r : Range) : Range := ⟨r.Min, r.Max⟩

/-- `CmpErrorInfo` from InputInfo.h. -/
structure CmpErrorInfo where
  MaxTolerance : Rat
  MayBeWrong : Bool
  deriving DecidableEq, Repr

/-- `CmpErrorInfo::CmpErrorInfo(double MaxTolerance, bool MayBeWrong = true)`.
The default argument is part of the declaration; calling with one argument
yields `MayBeWrong = true`. -/
def CmpErrorInfo.mkInfo (MaxTolerance : Rat) (MayBeWrong : Bool := true) : CmpErrorInfo :=
  ⟨MaxTolerance, MayBeWrong⟩

/-- `InputInfo` from InputInfo.h: three independently optional fields
(`IType`, `IRange`, `IError`).  The single-variant `TType` hierarchy makes
`IType` an optional `FPType`. -/
structure InputInfo where
  IType : Option FPType
  IRange : Option Range
  IError : Option Rat
  deriving DecidableEq, Repr

/-- `MDInfo` hierarchy from InputInfo.h: an `InputInfo` (kind `K_Field`) or
a `StructInfo` (kind `K_Struct`) holding an ordered, fixed-length list of
optional sub-annotations. -/
inductive MDInfo where
  | scalar (i : InputInfo)
  | struct (fields : List (Option MDInfo))

/-- `MDInfo::getKind` outcome: whether the node is struct-kind. -/
def MDInfo.isStructKind : MDInfo → Bool
  | .scalar _ => false
  | .struct _ => true

/-! ## The borrowed LLVM type-shape interface

`StructInfo::constructFromLLVMType` and `StructInfo::resolveFromIndexList`
consume `llvm::Type` only through `getNumContainedTypes`, `getContainedType`
and `isStructTy`; a type descriptor is therefore modelled by exactly that
shape information: a struct-likeness flag and the list of contained types. -/

inductive LLVMType where
  | node (isStruct : Bool) (contained : List LLVMType)

/-- `llvm::Type::isStructTy`. -/
def LLVMType.isStructTy : LLVMType → Bool
  | .node s _ => s

/-- `llvm::Type::getNumContainedTypes`. -/
def LLVMType.getNumContainedTypes : LLVMType → Nat
  | .node _ cs => cs.length

/-- `llvm::Type::getContainedType(i)`.  The host library asserts `i` is in
bounds; out-of-range access is a host-side contract violation, modelled by an
arbitrary default so that the function stays total. -/
def LLVMType.getContainedType : LLVMType → Nat → LLVMType
  | .node _ cs, i => cs.getD i (.node false [])

mutual

/-- `StructInfo::constructFromLLVMType`: returns null when the type has no
contained types; for a struct type builds a `StructInfo` whose i-th field is
the recursive construction on contained type i; for any other type with
contained types recurses directly into contained type 0. -/
def StructInfo.constructFromLLVMType : LLVMType → Option MDInfo
  | .node _ [] => none
  | .node true (c :: cs) =>
    some (.struct (StructInfo.constructList (c :: cs)))
  | .node false (c :: _) => StructInfo.constructFromLLVMType c

/-- The `for` loop of `constructFromLLVMType`'s struct branch: pushes the
recursive construction of every contained type, in order. -/
def StructInfo.constructList : List LLVMType → List (Option MDInfo)
  | [] => []
  | c :: cs => StructInfo.constructFromLLVMType c :: StructInfo.constructList cs

end

/-- `StructInfo::getField(I)`: `Fields[I]`, applied after the
`llvm::cast<StructInfo>` of `resolveFromIndexList`.  The cast asserts the
node is struct-kind and the `SmallVector` indexing asserts `I < size()`;
both are contract violations in the source, modelled as an absent result so
the function stays total. -/
def MDInfo.castStructGetField : MDInfo → Nat → Option MDInfo
  | .struct fs, i => fs.getD i none
  | .scalar _, _ => none

/-- The loop of `StructInfo::resolveFromIndexList`, one step per index:
stop (keeping the current, absent node) once `resolvedInfo` is null; on a
struct type descend both the type and the annotation to slot `idx`; on a
non-struct type advance only the type. -/
def StructInfo.resolveLoop : LLVMType → Option MDInfo → List Nat → Option MDInfo
  | _, info, [] => info
  | _, none, _ :: _ => none
  | ty, some info, idx :: rest =>
    if ty.isStructTy then
      StructInfo.resolveLoop (ty.getContainedType idx) (info.castStructGetField idx) rest
    else
      StructInfo.resolveLoop (ty.getContainedType idx) (some info) rest

/-- `StructInfo::resolveFromIndexList(type, indices)`: starts from `this`
(a struct-kind node with the given fields) and walks the index list. -/
def StructInfo.resolveFromIndexList (fields : List (Option MDInfo)) (type : LLVMType)
    (indices : List Nat) : Option MDInfo :=
  StructInfo.resolveLoop type (some (.struct fields)) indices

/-! ## Value-level clone

`MDInfo::clone` builds a structurally identical tree of freshly allocated
nodes; at the value level it is the deep copy below.  (The ownership side of
`InputInfo::clone` is treated separately with an explicit heap model.) -/

/-- `InputInfo::clone` at the value level: each present field is copied
(`IType->clone()`, `new Range(*IRange)`, `new double(*IError)`), absent
fields stay null. -/
def InputInfo.cloneV (i : InputInfo) : InputInfo :=
  ⟨i.IType.map FPType.clone, i.IRange.map Range.copy, i.IError.map id⟩

mutual

/-- `MDInfo::clone` (virtual dispatch over the two kinds) at the value
level; `StructInfo::clone` copies each non-null field via its own `clone`
and keeps null fields null. -/
def MDInfo.cloneV : MDInfo → MDInfo
  | .scalar i => .scalar i.cloneV
  | .struct fs => .struct (MDInfo.cloneSlots fs)

/-- The loop of `StructInfo::clone` over `Fields`. -/
def MDInfo.cloneSlots : List (Option MDInfo) → List (Option MDInfo)
  | [] => []
  | none :: rest => none :: MDInfo.cloneSlots rest
  | some m :: rest => some (MDInfo.cloneV m) :: MDInfo.cloneSlots rest

end

/-! ## Textual rendering

`InputInfo::toString` streams `double` values through `operator<<`, whose
digit formatting lives in the C++ standard library, outside this repository;
it is abstracted as a value printer `pd : Rat → String` that both the
implementation-side and the specification-side renderers share. -/

/-- `InputInfo::toString`: mirrors the stringstream accumulation with its
`first` flag — `scalar(`, then the `type(..)`, `range(.., ..)` and
`error(..)` parts for the present fields, a space before every part except
the first, then `)`. -/
def InputInfo.toStringImpl (pd : Rat → String) (i : InputInfo) : String :=
  let sstm := "scalar("
  let first := true
  let st :=
    match i.IType with
    | some t => (sstm ++ "type(" ++ t.toString ++ ")", false)
    | none => (sstm, first)
  let sr :=
    match i.IRange with
    | some r =>
      ((if !st.2 then st.1 ++ " " else st.1) ++ "range(" ++ pd r.Min ++ ", " ++ pd r.Max ++ ")",
        false)
    | none => st
  let se :=
    match i.IError with
    | some e => (if !sr.2 then sr.1 ++ " " else sr.1) ++ "error(" ++ pd e ++ ")"
    | none => sr.1
  se ++ ")"

mutual

/-- `MDInfo::toString` virtual dispatch: `InputInfo::toString` on field-kind
nodes, `StructInfo::toString` on struct-kind nodes. -/
def MDInfo.toStringImpl (pd : Rat → String) : MDInfo → String
  | .scalar i => i.toStringImpl pd
  | .struct fs => "struct(" ++ MDInfo.slotStrings pd true fs ++ ")"

/-- The loop of `StructInfo::toString` over `Fields`, carrying the `first`
flag: `, ` before every slot except the first, `void()` for a null slot. -/
def MDInfo.slotStrings (pd : Rat → String) : Bool → List (Option MDInfo) → String
  | _, [] => ""
  | first, slot :: rest =>
    (if !first then ", " else "")
      ++ (match slot with
          | some m => MDInfo.toStringImpl pd m
          | none => "void()")
      ++ MDInfo.slotStrings pd false rest

end

/-- Specification-side list join: the parts separated by `sep`. -/
def joinSep (sep : String) : List String → String
  | [] => ""
  | [x] => x
  | x :: y :: rest => x ++ sep ++ joinSep sep (y :: rest)

/-- Specification-side reading of the scalar rendering: the parts for the
present fields, in the fixed order type, range, error. -/
def InputInfo.parts (pd : Rat → String) (i : InputInfo) : List String :=
  (i.IType.map fun t => "type(" ++ t.toString ++ ")").toList
    ++ (i.IRange.map fun r => "range(" ++ pd r.Min ++ ", " ++ pd r.Max ++ ")").toList
    ++ (i.IError.map fun e => "error(" ++ pd e ++ ")").toList

/-! ## Metadata codec

The codec bodies (`toMetadata` / `createFromMetadata` in `InputInfo.cpp`)
are not part of the sources at hand; the definitions below are modelled from
the spec.  The external attributed-tree format is a tree of string, integer
and real leaves; "no information" children are an explicit sentinel node
(`Metadata.null`), distinct from every real value. -/

inductive Metadata where
  | str (s : String)
  | int (n : Int)
  | real (r : Rat)
  | null
  | node (fields : List Metadata)

/-- Modelled from the spec: `FPType::toMetadata` — self-describing node
`[tag "fixp", signedWidthField, fractionalBitsField]`, the width encoding
its sign. -/
def FPType.toMetadata (t : FPType) : Metadata :=
  .node [.str "fixp", .int t.Width, .int (t.PointPos : Int)]

/-- Modelled from the spec: `FPType::createFromMetadata` — validates the
`fixp` discriminator tag and the three-field arity before interpreting the
fields; any mismatch yields null, never an exception. -/
def FPType.createFromMetadata : Metadata → Option FPType
  | .node [.str tag, .int w, .int p] =>
    if tag = "fixp" ∧ 0 ≤ p then some ⟨w, p.toNat⟩ else none
  | _ => none

/-- Modelled from the spec: `FPType::isFPTypeMetadata` — the tag/arity check
alone. -/
def FPType.isFPTypeMetadata (m : Metadata) : Bool :=
  (FPType.createFromMetadata m).isSome

/-- Modelled from the spec: `Range::toMetadata` — `[tag, minField, maxField]`. -/
def Range.toMetadata (r : Range) : Metadata :=
  .node [.str "range", .real r.Min, .real r.Max]

/-- Modelled from the spec: `Range::createFromMetadata` — decode fails
(returns null) if the node is not recognised as a Range node. -/
def Range.createFromMetadata : Metadata → Option Range
  | .node [.str tag, .real mn, .real mx] =>
    if tag = "range" then some ⟨mn, mx⟩ else none
  | _ => none

/-- Modelled from the spec: `InitialErrorToMetadata` — a single real-valued
leaf plus a presence tag. -/
def InitialErrorToMetadata (e : Rat) : Metadata :=
  .node [.str "error", .real e]

/-- Modelled from the spec: `CreateInitialErrorFromMetadata`. -/
def CreateInitialErrorFromMetadata : Metadata → Option Rat
  | .node [.str tag, .real e] => if tag = "error" then some e else none
  | _ => none

/-- Modelled from the spec: `CmpErrorInfo::toMetadata` — a two-field node
`[toleranceField, mayBeWrongFlag]` behind the discriminator tag. -/
def CmpErrorInfo.toMetadata (c : CmpErrorInfo) : Metadata :=
  .node [.str "cmperror", .real c.MaxTolerance, .int (if c.MayBeWrong then 1 else 0)]

/-- Modelled from the spec: `CmpErrorInfo::createFromMetadata` — tag/arity
mismatch yields null. -/
def CmpErrorInfo.createFromMetadata : Metadata → Option CmpErrorInfo
  | .node [.str tag, .real tol, .int flag] =>
    if tag = "cmperror" then
      if flag = 1 then some ⟨tol, true⟩
      else if flag = 0 then some ⟨tol, false⟩
      else none
    else none
  | _ => none

/-- Modelled from the spec: an optional child reference — the sentinel node
for an absent child, the child's own encoding otherwise. -/
def encodeOpt (f : α → Metadata) : Option α → Metadata
  | none => .null
  | some x => f x

/-- Modelled from the spec: decoding an optional child reference — the
sentinel decodes to a (successfully decoded) absent field; anything else
must decode as a present child. -/
def decodeOpt (g : Metadata → Option α) : Metadata → Option (Option α)
  | .null => some none
  | m => (g m).map some

/-- Modelled from the spec: `InputInfo::toMetadata` — a self-describing
composite of the three optional child references, each independently
present or absent. -/
def InputInfo.toMetadata (i : InputInfo) : Metadata :=
  .node [.str "scalar",
    encodeOpt FPType.toMetadata i.IType,
    encodeOpt Range.toMetadata i.IRange,
    encodeOpt InitialErrorToMetadata i.IError]

/-- Modelled from the spec: decoding of a scalar annotation node — tag and
arity checked first, then the three optional children decoded
independently; any mismatch yields null. -/
def InputInfo.createFromMetadata : Metadata → Option InputInfo
  | .node [.str tag, m1, m2, m3] =>
    if tag = "scalar" then
      match decodeOpt FPType.createFromMetadata m1,
          decodeOpt Range.createFromMetadata m2,
          decodeOpt CreateInitialErrorFromMetadata m3 with
      | some t, some r, some e => some ⟨t, r, e⟩
      | _, _, _ => none
    else none
  | _ => none

mutual

/-- Modelled from the spec: encoding of an annotation node — scalar nodes
through `InputInfo::toMetadata`, struct nodes as a tagged ordered list of
optional child references, one per slot. -/
def MDInfo.toMetadata : MDInfo → Metadata
  | .scalar i => i.toMetadata
  | .struct fs => .node (.str "struct" :: MDInfo.slotsToMetadata fs)

/-- Modelled from the spec: the slot list of an aggregate node, an absent
slot becoming the sentinel. -/
def MDInfo.slotsToMetadata : List (Option MDInfo) → List Metadata
  | [] => []
  | none :: rest => .null :: MDInfo.slotsToMetadata rest
  | some m :: rest => MDInfo.toMetadata m :: MDInfo.slotsToMetadata rest

end

mutual

/-- Modelled from the spec: decoding of an annotation node — a closed-world
chain of try-recognise cases over the two known kinds; unknown tags decode
as null. -/
def MDInfo.createFromMetadata : Metadata → Option MDInfo
  | .node (.str "scalar" :: rest) =>
    (InputInfo.createFromMetadata (.node (.str "scalar" :: rest))).map .scalar
  | .node (.str "struct" :: slots) =>
    (MDInfo.slotsFromMetadata slots).map .struct
  | _ => none

/-- Modelled from the spec: decoding of an aggregate's slot list — the
sentinel yields an absent slot; everything else must decode as an
annotation node or the whole decode fails. -/
def MDInfo.slotsFromMetadata : List Metadata → Option (List (Option MDInfo))
  | [] => some []
  | .null :: rest => (MDInfo.slotsFromMetadata rest).map (none :: ·)
  | m :: rest =>
    match MDInfo.createFromMetadata m, MDInfo.slotsFromMetadata rest with
    | some mi, some others => some (some mi :: others)
    | _, _ => none

end

/-! ## Ownership model for `InputInfo::clone`

`InputInfo` holds its three fields behind `std::shared_ptr`.  To state that
`clone` produces independently-owned copies, the pointers are made explicit:
a heap with one address space per pointee sort (`TType`, `Range`, `double`)
and a bump allocator, and a pointer-level `InputInfo` whose fields are
optional addresses. -/

structure Heap where
  nextT : Nat
  memT : Nat → Option FPType
  nextR : Nat
  memR : Nat → Option Range
  nextE : Nat
  memE : Nat → Option Rat

/-- A heap is well formed when no cell at or beyond the bump pointer is
allocated. -/
def Heap.WF (h : Heap) : Prop :=
  (∀ a, h.nextT ≤ a → h.memT a = none)
    ∧ (∀ a, h.nextR ≤ a → h.memR a = none)
    ∧ (∀ a, h.nextE ≤ a → h.memE a = none)

/-- `new FPType(...)`: allocate a fresh `TType` cell. -/
def Heap.allocT (h : Heap) (v : FPType) : Heap × Nat :=
  ({ h with nextT := h.nextT + 1,
            memT := fun a => if a = h.nextT then some v else h.memT a },
    h.nextT)

/-- `new Range(...)`: allocate a fresh `Range` cell. -/
def Heap.allocR (h : Heap) (v : Range) : Heap × Nat :=
  ({ h with nextR := h.nextR + 1,
            memR := fun a => if a = h.nextR then some v else h.memR a },
    h.nextR)

/-- `new double(...)`: allocate a fresh `double` cell. -/
def Heap.allocE (h : Heap) (v : Rat) : Heap × Nat :=
  ({ h with nextE := h.nextE + 1,
            memE := fun a => if a = h.nextE then some v else h.memE a },
    h.nextE)

/-- `InputInfo` at the pointer level: the three `shared_ptr` fields as
optional addresses. -/
structure HInputInfo where
  IType : Option Nat
  IRange : Option Nat
  IError : Option Nat

/-- Every present field of `x` points at an allocated cell (what the C++
type system guarantees for a non-null `shared_ptr`). -/
def HInputInfo.validIn (x : HInputInfo) (h : Heap) : Prop :=
  (∀ a, x.IType = some a → (h.memT a).isSome)
    ∧ (∀ a, x.IRange = some a → (h.memR a).isSome)
    ∧ (∀ a, x.IError = some a → (h.memE a).isSome)

/-- Dereference of the three fields: the values seen through the pointers. -/
def HInputInfo.derefT (x : HInputInfo) (h : Heap) : Option FPType := x.IType.bind h.memT

def HInputInfo.derefR (x : HInputInfo) (h : Heap) : Option Range := x.IRange.bind h.memR

def HInputInfo.derefE (x : HInputInfo) (h : Heap) : Option Rat := x.IError.bind h.memE

/-- `InputInfo::clone` at the pointer level, line by line:
`NewIType(IType.get() ? IType->clone() : nullptr)`,
`NewIRange(IRange.get() ? new Range(*IRange) : nullptr)`,
`NewIError(IError.get() ? new double(*IError) : nullptr)`, then a new
`InputInfo` of the three.  A dangling pointer (impossible for a valid
argument) clones to null so the function stays total. -/
def InputInfo.cloneH (h : Heap) (x : HInputInfo) : Heap × HInputInfo :=
  let st : Heap × Option Nat :=
    match x.IType with
    | none => (h, none)
    | some a =>
      match h.memT a with
      | some t => let p := h.allocT t.clone; (p.1, some p.2)
      | none => (h, none)
  let sr : Heap × Option Nat :=
    match x.IRange with
    | none => (st.1, none)
    | some a =>
      match h.memR a with
      | some r => let p := st.1.allocR r.copy; (p.1, some p.2)
      | none => (st.1, none)
  let se : Heap × Option Nat :=
    match x.IError with
    | none => (sr.1, none)
    | some a =>
      match h.memE a with
      | some e => let p := sr.1.allocE e; (p.1, some p.2)
      | none => (sr.1, none)
  (se.1, ⟨st.2, sr.2, se.2⟩)

/-! ## Theorems -/

/-- C10: constructing a `CmpErrorInfo` with only the tolerance argument
yields `MayBeWrong = true` (the default) and `MaxTolerance` equal to the
given tolerance. -/
theorem claim_C10_cmp_error_default (t : Rat) :
    (CmpErrorInfo.mkInfo t).MayBeWrong = true ∧ (CmpErrorInfo.mkInfo t).MaxTolerance = t :=
  ⟨rfl, rfl⟩

/-- C9 counterexample: at the program-representable unsigned width
`2^31 + 1` with `Signed = true`, the unsigned negation wraps to
`2^32 - w = 2^31 - 1 > 0`, so the constructed type is *not* signed and its
width is not `w` — the claim's accessor equations fail while its `w > 0`
premise holds. -/
theorem claim_C9_counterexample :
    0 < 2 ^ 31 + 1
    ∧ ¬((FPType.ofUnsigned (2 ^ 31 + 1) 16 true).getWidth = 2 ^ 31 + 1
        ∧ (FPType.ofUnsigned (2 ^ 31 + 1) 16 true).getPointPos = 16
        ∧ (FPType.ofUnsigned (2 ^ 31 + 1) 16 true).isSigned = true)
    ∧ (FPType.ofUnsigned (2 ^ 31 + 1) 16 true).isSigned = false
    ∧ (FPType.ofUnsigned (2 ^ 31 + 1) 16 true).getWidth = 2 ^ 31 - 1 := by
  refine ⟨by decide, ?_, by decide, by decide⟩
  intro ⟨_, _, hc⟩
  rw [show (FPType.ofUnsigned (2 ^ 31 + 1) 16 true).isSigned = false from by decide] at hc
  exact Bool.noConfusion hc

/-- C9 (amended): for the three-argument `FPType` constructor with positive
width below `2^31`, `getWidth`, `getPointPos` and `isSigned` return the
constructor arguments; at width `0` with `Signed = true` the sign encoding
collapses and `isSigned` is `false`; and at widths above `2^31` with
`Signed = true` the unsigned negation wraps, leaving the type unsigned with
width `2^32 - w`. -/
theorem claim_C9_unsigned_ctor (w p : Nat) (s : Bool) (hw : w < 2 ^ 31) (hpos : 0 < w) :
    (FPType.ofUnsigned w p s).getWidth = w
    ∧ (FPType.ofUnsigned w p s).getPointPos = p
    ∧ (FPType.ofUnsigned w p s).isSigned = s
    ∧ (FPType.ofUnsigned 0 p true).isSigned = false
    ∧ (∀ v : Nat, 2 ^ 31 < v → v < 2 ^ 32 →
        (FPType.ofUnsigned v p true).isSigned = false
        ∧ (FPType.ofUnsigned v p true).getWidth = 2 ^ 32 - v) := by
  refine ⟨?_, rfl, ?_, by norm_num [FPType.ofUnsigned, FPType.isSigned, toInt32], ?_⟩
  · cases s <;>
      (simp only [FPType.ofUnsigned, FPType.getWidth, toInt32, Bool.false_eq_true,
        if_false, if_true]
       split <;> omega)
  · cases s with
    | false =>
      simp only [FPType.ofUnsigned, FPType.isSigned, toInt32, Bool.false_eq_true, if_false,
        decide_eq_false_iff_not, not_lt]
      split <;> omega
    | true =>
      simp only [FPType.ofUnsigned, FPType.isSigned, toInt32, if_true, decide_eq_true_eq]
      split <;> omega
  · intro v h1 h2
    constructor
    · simp only [FPType.ofUnsigned, FPType.isSigned, toInt32, if_true,
        decide_eq_false_iff_not, not_lt]
      split <;> omega
    · simp only [FPType.ofUnsigned, FPType.getWidth, toInt32, if_true]
      split <;> omega

/-- Witness for C9 at `w = 32`, `p = 16`, `s = true`. -/
theorem claim_C9_unsigned_ctor_witness :
    (FPType.ofUnsigned 32 16 true).getWidth = 32
    ∧ (FPType.ofUnsigned 32 16 true).getPointPos = 16
    ∧ (FPType.ofUnsigned 32 16 true).isSigned = true
    ∧ (FPType.ofUnsigned 0 16 true).isSigned = false
    ∧ (∀ v : Nat, 2 ^ 31 < v → v < 2 ^ 32 →
        (FPType.ofUnsigned v 16 true).isSigned = false
        ∧ (FPType.ofUnsigned v 16 true).getWidth = 2 ^ 32 - v) :=
  claim_C9_unsigned_ctor 32 16 true (by decide) (by decide)

/-- C6: `FPType::operator==` (kind check through `TType::operator==`, then
field comparison) holds exactly when the two operands carry the same kind
tag and the same `(Width, PointPos)` pair. -/
theorem claim_C6_equality (a b : FPType) :
    FPType.eqTType a b = true
      ↔ a.getKind = b.getKind ∧ a.Width = b.Width ∧ a.PointPos = b.PointPos := by
  simp [FPType.eqTType, TType.baseEq, FPType.getKind]

/-- C5 counterexample: the program-representable type `FPType(8, 200)` has
fractional bits exceeding the width, and `InputInfo.h:98` performs the
subtraction `std::abs(Width)-PointPos` in *unsigned* arithmetic: it prints
`u4294967104_200fixp` — neither the truncated nor the integer reading of
"total width minus fractional bits" — so the claim's universal canonical
form fails there. -/
theorem claim_C5_toString_counterexample :
    (FPType.ofSigned 8 200).toString = "u4294967104_200fixp"
    ∧ (FPType.ofSigned 8 200).toString
        ≠ "u" ++ Nat.repr ((FPType.ofSigned 8 200).getWidth
            - (FPType.ofSigned 8 200).getPointPos)
          ++ "_" ++ Nat.repr (FPType.ofSigned 8 200).getPointPos ++ "fixp"
    ∧ (FPType.ofSigned 8 200).toString ≠ "u-192_200fixp" := by
  refine ⟨by decide, by decide, by decide⟩

/-- C5 (amended): `FPType::toString` produces `{s|u}<intBits>_<fracBits>fixp`
with `intBits = totalWidth - fractionalBits` whenever the fractional bits do
not exceed the (32-bit-representable) total width; outside that regime the
printed `intBits` is the wrapped 32-bit unsigned difference.  In particular
`FPType(-32, 16)` prints `s16_16fixp` and `FPType(16, 8)` prints
`u8_8fixp`. -/
theorem claim_C5_toString (t : FPType)
    (hp : t.PointPos ≤ t.Width.natAbs) (hw : t.Width.natAbs < 2 ^ 31) :
    t.toString
      = (if t.isSigned then "s" else "u")
        ++ Nat.repr (t.getWidth - t.getPointPos) ++ "_" ++ Nat.repr t.getPointPos ++ "fixp"
    ∧ (FPType.ofSigned (-32) 16).toString = "s16_16fixp"
    ∧ (FPType.ofSigned 16 8).toString = "u8_8fixp" := by
  refine ⟨?_, by decide, by decide⟩
  have hnum : (t.Width.natAbs + (2 ^ 32 - t.PointPos % 2 ^ 32)) % 2 ^ 32
      = t.Width.natAbs - t.PointPos := by omega
  simp only [FPType.toString, FPType.isSigned, FPType.getWidth, FPType.getPointPos, hnum]
  by_cases hs : t.Width < 0 <;> simp [hs]

/-- Witness for C5 at the signed 16.16 format. -/
theorem claim_C5_toString_witness :
    (FPType.ofSigned (-32) 16).toString
      = (if (FPType.ofSigned (-32) 16).isSigned then "s" else "u")
        ++ Nat.repr ((FPType.ofSigned (-32) 16).getWidth - (FPType.ofSigned (-32) 16).getPointPos)
        ++ "_" ++ Nat.repr (FPType.ofSigned (-32) 16).getPointPos ++ "fixp"
    ∧ (FPType.ofSigned (-32) 16).toString = "s16_16fixp"
    ∧ (FPType.ofSigned 16 8).toString = "u8_8fixp" :=
  claim_C5_toString (FPType.ofSigned (-32) 16) (by decide) (by decide)

/-- The struct-branch loop of `constructFromLLVMType` is the elementwise
map of the recursive construction. -/
theorem constructList_eq_map (l : List LLVMType) :
    StructInfo.constructList l = l.map StructInfo.constructFromLLVMType := by
  induction l with
  | nil => rfl
  | cons c cs ih => rw [StructInfo.constructList, ih, List.map_cons]

/-- C2: `StructInfo::constructFromLLVMType` yields null on a descriptor with
zero contained elements; on a struct descriptor with `N` immediate elements
it yields a `StructInfo` with exactly `N` slots, slot `i` being the
recursive derivation of contained element `i`; and on a non-struct
descriptor with at least one contained element it returns the recursive
derivation of contained element `0` directly, with no extra layer. -/
theorem claim_C2_shape_derivation :
    (∀ b : Bool, StructInfo.constructFromLLVMType (.node b []) = none)
    ∧ (∀ (c : LLVMType) (cs : List LLVMType),
        StructInfo.constructFromLLVMType (.node true (c :: cs))
          = some (.struct ((c :: cs).map StructInfo.constructFromLLVMType))
        ∧ ((c :: cs).map StructInfo.constructFromLLVMType).length = (c :: cs).length)
    ∧ (∀ (c : LLVMType) (cs : List LLVMType),
        StructInfo.constructFromLLVMType (.node false (c :: cs))
          = StructInfo.constructFromLLVMType c) := by
  refine ⟨fun b => by cases b <;> rfl, fun c cs => ⟨?_, by simp⟩, fun c cs => rfl⟩
  rw [StructInfo.constructFromLLVMType, constructList_eq_map]

/-- A path all of whose steps start at a non-struct type descriptor. -/
def allNonStructPath : LLVMType → List Nat → Bool
  | _, [] => true
  | ty, idx :: rest => !ty.isStructTy && allNonStructPath (ty.getContainedType idx) rest

/-- The resolution loop never changes the annotation node while it walks
non-struct types. -/
theorem resolveLoop_nonstruct (info : MDInfo) :
    ∀ (ty : LLVMType) (idxs : List Nat), allNonStructPath ty idxs = true →
      StructInfo.resolveLoop ty (some info) idxs = some info := by
  intro ty idxs
  induction idxs generalizing ty with
  | nil => intro _; rfl
  | cons idx rest ih =>
    intro h
    rw [allNonStructPath] at h
    simp only [Bool.and_eq_true, Bool.not_eq_true'] at h
    rw [StructInfo.resolveLoop, if_neg (by simp [h.1])]
    exact ih _ h.2

/-- C3: resolving any index path whose steps all traverse non-struct types
leaves the annotation node unchanged, whatever the index values. -/
theorem claim_C3_nonstruct_resolution (fs : List (Option MDInfo)) (ty : LLVMType)
    (idxs : List Nat) (h : allNonStructPath ty idxs = true) :
    StructInfo.resolveFromIndexList fs ty idxs = some (.struct fs) :=
  resolveLoop_nonstruct (.struct fs) ty idxs h

/-- Witness for C3: a two-step path with an out-of-range second index
through array-like wrappers leaves the annotation untouched. -/
theorem claim_C3_nonstruct_resolution_witness :
    allNonStructPath (.node false [.node false []]) [0, 5] = true
    ∧ StructInfo.resolveFromIndexList [some (.scalar ⟨none, none, none⟩), none]
        (.node false [.node false []]) [0, 5]
      = some (.struct [some (.scalar ⟨none, none, none⟩), none]) :=
  ⟨rfl, claim_C3_nonstruct_resolution _ _ _ rfl⟩

/-- C4: on a struct type whose contained type `1` is again struct-like,
resolving `[1, 0]` returns slot `0` of the aggregate content found in slot
`1` — exactly the manual two-step descent; and if slot `1` is absent,
resolution of any path starting with `1` stops early with an absent
result. -/
theorem claim_C4_struct_resolution (fs gs : List (Option MDInfo)) (ty : LLVMType)
    (rest : List Nat) (h1 : ty.isStructTy = true)
    (h2 : (ty.getContainedType 1).isStructTy = true) :
    (fs.getD 1 none = some (.struct gs) →
      StructInfo.resolveFromIndexList fs ty [1, 0] = gs.getD 0 none)
    ∧ (fs.getD 1 none = none →
      StructInfo.resolveFromIndexList fs ty (1 :: rest) = none) := by
  constructor
  · intro hslot
    rw [StructInfo.resolveFromIndexList, StructInfo.resolveLoop, if_pos (by simp [h1])]
    rw [MDInfo.castStructGetField, hslot]
    rw [StructInfo.resolveLoop, if_pos (by simp [h2])]
    rw [MDInfo.castStructGetField]
    cases hg : gs.getD 0 none <;> rfl
  · intro hslot
    rw [StructInfo.resolveFromIndexList, StructInfo.resolveLoop, if_pos (by simp [h1])]
    rw [MDInfo.castStructGetField, hslot]
    cases rest <;> rfl

/-- Witness for C4 on a concrete two-level struct with a matching
aggregate, plus the early stop when slot `1` is absent. -/
theorem claim_C4_struct_resolution_witness :
    (([none, some (.struct [some (.scalar ⟨none, none, none⟩), none])] :
        List (Option MDInfo)).getD 1 none
      = some (.struct [some (.scalar ⟨none, none, none⟩), none]) →
      StructInfo.resolveFromIndexList
          [none, some (.struct [some (.scalar ⟨none, none, none⟩), none])]
          (.node true [.node false [], .node true [.node false [], .node false []]]) [1, 0]
        = ([some (.scalar ⟨none, none, none⟩), none] : List (Option MDInfo)).getD 0 none)
    ∧ (([none, some (.struct [some (.scalar ⟨none, none, none⟩), none])] :
        List (Option MDInfo)).getD 1 none = none →
      StructInfo.resolveFromIndexList
          [none, some (.struct [some (.scalar ⟨none, none, none⟩), none])]
          (.node true [.node false [], .node true [.node false [], .node false []]]) [1, 2]
        = none) :=
  claim_C4_struct_resolution
    [none, some (.struct [some (.scalar ⟨none, none, none⟩), none])]
    [some (.scalar ⟨none, none, none⟩), none]
    (.node true [.node false [], .node true [.node false [], .node false []]])
    [2] rfl rfl

/-- How one slot of an aggregate renders: `void()` when absent, the node's
own `toString` otherwise. -/
def slotRender (pd : Rat → String) (s : Option MDInfo) : String :=
  s.elim "void()" (MDInfo.toStringImpl pd)

/-- After the first slot the `first` flag of `StructInfo::toString` is
down: the tail renders as `, ` followed by the first-position rendering. -/
theorem slotStrings_false_cons (pd : Rat → String) (slot : Option MDInfo)
    (rest : List (Option MDInfo)) :
    MDInfo.slotStrings pd false (slot :: rest)
      = ", " ++ MDInfo.slotStrings pd true (slot :: rest) := by
  cases slot <;> simp [MDInfo.slotStrings, ← String.append_assoc]

/-- In first position a slot renders with no separator before it. -/
theorem slotStrings_true_cons (pd : Rat → String) (slot : Option MDInfo)
    (rest : List (Option MDInfo)) :
    MDInfo.slotStrings pd true (slot :: rest)
      = slotRender pd slot ++ MDInfo.slotStrings pd false rest := by
  cases slot <;> simp [MDInfo.slotStrings, slotRender]

/-- The slot loop of `StructInfo::toString`, started with the `first` flag
up, is the comma-separated join of the slot renderings. -/
theorem slotStrings_true_join (pd : Rat → String) :
    ∀ fs : List (Option MDInfo),
      MDInfo.slotStrings pd true fs = joinSep ", " (fs.map (slotRender pd)) := by
  intro fs
  induction fs with
  | nil => rfl
  | cons slot rest ih =>
    rw [slotStrings_true_cons]
    cases rest with
    | nil => simp [MDInfo.slotStrings, joinSep]
    | cons y ys =>
      rw [slotStrings_false_cons, ih]
      simp [joinSep, ← String.append_assoc]

/-- C8: `InputInfo::toString` emits `scalar(...)` containing exactly the
parts for the present fields, space-separated, in the order type, range,
error; and `StructInfo::toString` emits `struct(...)` with the slots
comma-separated and absent slots rendered `void()`. -/
theorem claim_C8_toString (pd : Rat → String) (i : InputInfo) (fs : List (Option MDInfo)) :
    InputInfo.toStringImpl pd i = "scalar(" ++ joinSep " " (InputInfo.parts pd i) ++ ")"
    ∧ MDInfo.toStringImpl pd (.struct fs)
      = "struct(" ++ joinSep ", " (fs.map (slotRender pd)) ++ ")" := by
  constructor
  · obtain ⟨t, r, e⟩ := i
    cases t <;> cases r <;> cases e <;>
      simp [InputInfo.toStringImpl, InputInfo.parts, joinSep, ← String.append_assoc]
  · rw [show MDInfo.toStringImpl pd (.struct fs)
          = "struct(" ++ MDInfo.slotStrings pd true fs ++ ")" from by
        simp [MDInfo.toStringImpl],
      slotStrings_true_join]

/-- `InputInfo::clone` copies each present field to an equal value and
keeps absent fields absent: at the value level it is the identity. -/
theorem InputInfo.cloneV_identity (i : InputInfo) : i.cloneV = i := by
  obtain ⟨t, r, e⟩ := i
  cases t <;> cases r <;> cases e <;> rfl

mutual

/-- `MDInfo::clone` is the identity at the value level: the copy is
structurally equal to the source. -/
theorem MDInfo.cloneV_eq : ∀ m : MDInfo, MDInfo.cloneV m = m
  | .scalar i => by rw [MDInfo.cloneV, InputInfo.cloneV_identity]
  | .struct fs => by rw [MDInfo.cloneV, MDInfo.cloneSlots_eq]

/-- `StructInfo::clone` preserves the slot list: every present slot is
deep-copied to an equal value, absent slots stay absent. -/
theorem MDInfo.cloneSlots_eq : ∀ fs : List (Option MDInfo), MDInfo.cloneSlots fs = fs
  | [] => rfl
  | none :: rest => by rw [MDInfo.cloneSlots, MDInfo.cloneSlots_eq rest]
  | some m :: rest => by
    rw [MDInfo.cloneSlots, MDInfo.cloneV_eq m, MDInfo.cloneSlots_eq rest]

end

/-- C7: cloning a scalar annotation in the heap model (1) keeps each of the
three fields present exactly when it was present, (2) the clone
dereferences to the same values as the original, (3) the original's fields
dereference after the clone exactly as before — so no reassignment of the
clone's handles can ever change them, (4) every present field of the clone
is a freshly allocated cell, unallocated in the original heap, so the clone
shares no storage with the original; and (5) `StructInfo::clone`
deep-copies every slot to a structurally equal value with absent slots
staying absent. -/
theorem claim_C7_clone_independence (h : Heap) (x : HInputInfo)
    (hwf : h.WF) (hv : x.validIn h) :
    ((InputInfo.cloneH h x).2.IType.isSome = x.IType.isSome
      ∧ (InputInfo.cloneH h x).2.IRange.isSome = x.IRange.isSome
      ∧ (InputInfo.cloneH h x).2.IError.isSome = x.IError.isSome)
    ∧ ((InputInfo.cloneH h x).2.derefT (InputInfo.cloneH h x).1 = x.derefT h
      ∧ (InputInfo.cloneH h x).2.derefR (InputInfo.cloneH h x).1 = x.derefR h
      ∧ (InputInfo.cloneH h x).2.derefE (InputInfo.cloneH h x).1 = x.derefE h)
    ∧ (x.derefT (InputInfo.cloneH h x).1 = x.derefT h
      ∧ x.derefR (InputInfo.cloneH h x).1 = x.derefR h
      ∧ x.derefE (InputInfo.cloneH h x).1 = x.derefE h)
    ∧ ((∀ b, (InputInfo.cloneH h x).2.IType = some b → h.memT b = none)
      ∧ (∀ b, (InputInfo.cloneH h x).2.IRange = some b → h.memR b = none)
      ∧ (∀ b, (InputInfo.cloneH h x).2.IError = some b → h.memE b = none))
    ∧ ((∀ fs : List (Option MDInfo), MDInfo.cloneSlots fs = fs)
      ∧ (∀ m : MDInfo, MDInfo.cloneV m = m)) := by
  obtain ⟨hwT, hwR, hwE⟩ := hwf
  obtain ⟨hvT, hvR, hvE⟩ := hv
  obtain ⟨xt, xr, xe⟩ := x
  refine ⟨?_, ?_, ?_, ?_, MDInfo.cloneSlots_eq, MDInfo.cloneV_eq⟩ <;>
  · cases hxt : xt with
    | none =>
      cases hxr : xr with
      | none =>
        cases hxe : xe with
        | none => simp [InputInfo.cloneH, HInputInfo.derefT, HInputInfo.derefR,
            HInputInfo.derefE]
        | some a =>
          have := hvE a (by rw [hxe])
          cases he : h.memE a with
          | none => rw [he] at this; simp at this
          | some v =>
            have hlt : a < h.nextE := by
              by_contra hc
              rw [hwE a (by omega)] at he; exact Option.noConfusion he
            simp [InputInfo.cloneH, Heap.allocE, HInputInfo.derefT, HInputInfo.derefR,
              HInputInfo.derefE, he, hwE h.nextE le_rfl, Nat.ne_of_lt hlt]
      | some a =>
        have := hvR a (by rw [hxr])
        cases hr : h.memR a with
        | none => rw [hr] at this; simp at this
        | some v =>
          have hlt : a < h.nextR := by
            by_contra hc
            rw [hwR a (by omega)] at hr; exact Option.noConfusion hr
          cases hxe : xe with
          | none =>
            simp [InputInfo.cloneH, Heap.allocR, HInputInfo.derefT, HInputInfo.derefR,
              HInputInfo.derefE, hr, hwR h.nextR le_rfl, Nat.ne_of_lt hlt, Range.copy]
          | some b =>
            have hb := hvE b (by rw [hxe])
            cases he : h.memE b with
            | none => rw [he] at hb; simp at hb
            | some w =>
              have hltb : b < h.nextE := by
                by_contra hc
                rw [hwE b (by omega)] at he; exact Option.noConfusion he
              simp [InputInfo.cloneH, Heap.allocR, Heap.allocE, HInputInfo.derefT,
                HInputInfo.derefR, HInputInfo.derefE, hr, he, hwR h.nextR le_rfl,
                hwE h.nextE le_rfl, Nat.ne_of_lt hlt, Nat.ne_of_lt hltb, Range.copy]
    | some a0 =>
      have := hvT a0 (by rw [hxt])
      cases ht : h.memT a0 with
      | none => rw [ht] at this; simp at this
      | some t0 =>
        have hlt0 : a0 < h.nextT := by
          by_contra hc
          rw [hwT a0 (by omega)] at ht; exact Option.noConfusion ht
        cases hxr : xr with
        | none =>
          cases hxe : xe with
          | none =>
            simp [InputInfo.cloneH, Heap.allocT, HInputInfo.derefT, HInputInfo.derefR,
              HInputInfo.derefE, ht, hwT h.nextT le_rfl, Nat.ne_of_lt hlt0, FPType.clone]
          | some b =>
            have hb := hvE b (by rw [hxe])
            cases he : h.memE b with
            | none => rw [he] at hb; simp at hb
            | some w =>
              have hltb : b < h.nextE := by
                by_contra hc
                rw [hwE b (by omega)] at he; exact Option.noConfusion he
              simp [InputInfo.cloneH, Heap.allocT, Heap.allocE, HInputInfo.derefT,
                HInputInfo.derefR, HInputInfo.derefE, ht, he, hwT h.nextT le_rfl,
                hwE h.nextE le_rfl, Nat.ne_of_lt hlt0, Nat.ne_of_lt hltb, FPType.clone]
        | some a =>
          have ha := hvR a (by rw [hxr])
          cases hr : h.memR a with
          | none => rw [hr] at ha; simp at ha
          | some v =>
            have hlt : a < h.nextR := by
              by_contra hc
              rw [hwR a (by omega)] at hr; exact Option.noConfusion hr
            cases hxe : xe with
            | none =>
              simp [InputInfo.cloneH, Heap.allocT, Heap.allocR, HInputInfo.derefT,
                HInputInfo.derefR, HInputInfo.derefE, ht, hr, hwT h.nextT le_rfl,
                hwR h.nextR le_rfl, Nat.ne_of_lt hlt0, Nat.ne_of_lt hlt, FPType.clone,
                Range.copy]
            | some b =>
              have hb := hvE b (by rw [hxe])
              cases he : h.memE b with
              | none => rw [he] at hb; simp at hb
              | some w =>
                have hltb : b < h.nextE := by
                  by_contra hc
                  rw [hwE b (by omega)] at he; exact Option.noConfusion he
                simp [InputInfo.cloneH, Heap.allocT, Heap.allocR, Heap.allocE,
                  HInputInfo.derefT, HInputInfo.derefR, HInputInfo.derefE, ht, hr, he,
                  hwT h.nextT le_rfl, hwR h.nextR le_rfl, hwE h.nextE le_rfl,
                  Nat.ne_of_lt hlt0, Nat.ne_of_lt hlt, Nat.ne_of_lt hltb, FPType.clone,
                  Range.copy]

/-- A concrete well-formed heap: one `FPType`, one `Range` and one error
cell, all at address `0`. -/
def heap0 : Heap :=
  ⟨1, fun a => if a = 0 then some ⟨-8, 4⟩ else none,
    1, fun a => if a = 0 then some ⟨1, 2⟩ else none,
    1, fun a => if a = 0 then some ((1 : Rat) / 2) else none⟩

/-- A concrete scalar annotation with all three fields present. -/
def hx0 : HInputInfo := ⟨some 0, some 0, some 0⟩

/-- Witness for C7 on `heap0` and `hx0`. -/
theorem claim_C7_clone_independence_witness :
    (heap0.WF ∧ hx0.validIn heap0)
    ∧ (((InputInfo.cloneH heap0 hx0).2.IType.isSome = hx0.IType.isSome
        ∧ (InputInfo.cloneH heap0 hx0).2.IRange.isSome = hx0.IRange.isSome
        ∧ (InputInfo.cloneH heap0 hx0).2.IError.isSome = hx0.IError.isSome)
      ∧ ((InputInfo.cloneH heap0 hx0).2.derefT (InputInfo.cloneH heap0 hx0).1
            = hx0.derefT heap0
        ∧ (InputInfo.cloneH heap0 hx0).2.derefR (InputInfo.cloneH heap0 hx0).1
            = hx0.derefR heap0
        ∧ (InputInfo.cloneH heap0 hx0).2.derefE (InputInfo.cloneH heap0 hx0).1
            = hx0.derefE heap0)
      ∧ (hx0.derefT (InputInfo.cloneH heap0 hx0).1 = hx0.derefT heap0
        ∧ hx0.derefR (InputInfo.cloneH heap0 hx0).1 = hx0.derefR heap0
        ∧ hx0.derefE (InputInfo.cloneH heap0 hx0).1 = hx0.derefE heap0)
      ∧ ((∀ b, (InputInfo.cloneH heap0 hx0).2.IType = some b → heap0.memT b = none)
        ∧ (∀ b, (InputInfo.cloneH heap0 hx0).2.IRange = some b → heap0.memR b = none)
        ∧ (∀ b, (InputInfo.cloneH heap0 hx0).2.IError = some b → heap0.memE b = none))
      ∧ ((∀ fs : List (Option MDInfo), MDInfo.cloneSlots fs = fs)
        ∧ (∀ m : MDInfo, MDInfo.cloneV m = m))) := by
  have hwf : heap0.WF := by
    refine ⟨?_, ?_, ?_⟩ <;>
    · intro a ha
      simp only [heap0] at ha ⊢
      rw [if_neg (by omega)]
  have hv : hx0.validIn heap0 := by
    refine ⟨?_, ?_, ?_⟩ <;>
    · intro a ha
      simp only [hx0, Option.some.injEq] at ha
      subst ha
      simp [heap0]
  exact ⟨⟨hwf, hv⟩, claim_C7_clone_independence heap0 hx0 hwf hv⟩

/-- Round-trip of the fixed-point type codec. -/
theorem fp_roundtrip (t : FPType) :
    FPType.createFromMetadata (FPType.toMetadata t) = some t := by
  simp [FPType.toMetadata, FPType.createFromMetadata]

/-- Round-trip of the range codec. -/
theorem range_roundtrip (r : Range) :
    Range.createFromMetadata (Range.toMetadata r) = some r := by
  simp [Range.toMetadata, Range.createFromMetadata]

/-- Round-trip of the initial-error codec. -/
theorem err_roundtrip (e : Rat) :
    CreateInitialErrorFromMetadata (InitialErrorToMetadata e) = some e := by
  simp [InitialErrorToMetadata, CreateInitialErrorFromMetadata]

/-- Round-trip of the comparison-error codec. -/
theorem cmp_roundtrip (c : CmpErrorInfo) :
    CmpErrorInfo.createFromMetadata (CmpErrorInfo.toMetadata c) = some c := by
  obtain ⟨tol, flag⟩ := c
  cases flag <;> simp [CmpErrorInfo.toMetadata, CmpErrorInfo.createFromMetadata]

/-- Round-trip of the scalar-annotation codec, including all combinations
of absent fields. -/
theorem input_roundtrip (i : InputInfo) :
    InputInfo.createFromMetadata (InputInfo.toMetadata i) = some i := by
  obtain ⟨t, r, e⟩ := i
  cases t <;> cases r <;> cases e <;>
    simp [InputInfo.toMetadata, InputInfo.createFromMetadata, encodeOpt, decodeOpt,
      FPType.toMetadata, FPType.createFromMetadata, Range.toMetadata,
      Range.createFromMetadata, InitialErrorToMetadata, CreateInitialErrorFromMetadata]

mutual

/-- Round-trip of the annotation-node codec, for scalar and aggregate
nodes alike. -/
theorem MDInfo.roundtrip : ∀ m : MDInfo,
    MDInfo.createFromMetadata (MDInfo.toMetadata m) = some m
  | .scalar i => by
    calc MDInfo.createFromMetadata (MDInfo.toMetadata (.scalar i))
        = (InputInfo.createFromMetadata (InputInfo.toMetadata i)).map .scalar := rfl
      _ = some (.scalar i) := by rw [input_roundtrip]; rfl
  | .struct fs => by
    calc MDInfo.createFromMetadata (MDInfo.toMetadata (.struct fs))
        = (MDInfo.slotsFromMetadata (MDInfo.slotsToMetadata fs)).map .struct := rfl
      _ = some (.struct fs) := by rw [MDInfo.slots_roundtrip fs]; rfl

/-- Round-trip of an aggregate's slot list: absent slots come back absent,
present slots come back equal. -/
theorem MDInfo.slots_roundtrip : ∀ fs : List (Option MDInfo),
    MDInfo.slotsFromMetadata (MDInfo.slotsToMetadata fs) = some fs
  | [] => rfl
  | none :: rest => by
    rw [show MDInfo.slotsToMetadata (none :: rest)
          = .null :: MDInfo.slotsToMetadata rest from by simp [MDInfo.slotsToMetadata]]
    rw [show MDInfo.slotsFromMetadata (.null :: MDInfo.slotsToMetadata rest)
          = (MDInfo.slotsFromMetadata (MDInfo.slotsToMetadata rest)).map (none :: ·) from by
        simp [MDInfo.slotsFromMetadata]]
    rw [MDInfo.slots_roundtrip rest]
    rfl
  | some m :: rest => by
    have hnode : ∃ l, MDInfo.toMetadata m = Metadata.node l := by
      cases m with
      | scalar i => exact ⟨_, rfl⟩
      | struct gs => exact ⟨_, rfl⟩
    obtain ⟨l, hl⟩ := hnode
    rw [show MDInfo.slotsToMetadata (some m :: rest)
          = MDInfo.toMetadata m :: MDInfo.slotsToMetadata rest from by
        simp [MDInfo.slotsToMetadata]]
    rw [hl]
    rw [show MDInfo.slotsFromMetadata (Metadata.node l :: MDInfo.slotsToMetadata rest)
          = match MDInfo.createFromMetadata (Metadata.node l),
              MDInfo.slotsFromMetadata (MDInfo.slotsToMetadata rest) with
            | some mi, some others => some (some mi :: others)
            | _, _ => none from by
        simp [MDInfo.slotsFromMetadata]]
    rw [← hl, MDInfo.roundtrip m, MDInfo.slots_roundtrip rest]

end

/-- C1: for every fixed-point type, range, scalar annotation, annotation
node (scalar or aggregate) and comparison-error value, and for the
initial-error leaf, decoding the metadata produced by encoding yields the
original value, including when optional fields are absent. -/
theorem claim_C1_roundtrip :
    (∀ t : FPType, FPType.createFromMetadata (FPType.toMetadata t) = some t)
    ∧ (∀ r : Range, Range.createFromMetadata (Range.toMetadata r) = some r)
    ∧ (∀ i : InputInfo, InputInfo.createFromMetadata (InputInfo.toMetadata i) = some i)
    ∧ (∀ m : MDInfo, MDInfo.createFromMetadata (MDInfo.toMetadata m) = some m)
    ∧ (∀ c : CmpErrorInfo, CmpErrorInfo.createFromMetadata (CmpErrorInfo.toMetadata c) = some c)
    ∧ (∀ e : Rat, CreateInitialErrorFromMetadata (InitialErrorToMetadata e) = some e) :=
  ⟨fp_roundtrip, range_roundtrip, input_roundtrip, MDInfo.roundtrip, cmp_roundtrip,
    err_roundtrip⟩

end InputInfoModel
